import Mathlib

/-
Verification of the ride-sharing dispatch system (src/main.cpp).

The development shallowly embeds the C++ program: enums become inductives,
classes become structures, mutation becomes explicit state passing, and the
singleton DispatchService becomes a DispatchState threaded through the
operations.  Machine doubles are modelled as rationals; the Euclidean
distance, whose C++ value is sqrt(dx*dx + dy*dy), is modelled by its square
(dx*dx + dy*dy), which induces exactly the same comparisons because
Real.sqrt is strictly monotone on nonnegative arguments (see
sqrt_le_sqrt_rat / sqrt_lt_sqrt_rat below); theorems about "the distance"
are stated through Real.sqrt of the squared distance.  The spec (section 1
and 6) treats geographic distance computation as an external pure function
of two coordinate pairs, so the dispatch operations additionally take the
ride-creation distance function as an explicit parameter.
-/

namespace RideShare

/-- VehicleType enum of the source. -/
inductive VehicleType where
  | BIKE | SEDAN | SUV | AUTO
deriving DecidableEq

/-- RideStatus enum of the source. -/
inductive RideStatus where
  | REQUESTED | DRIVER_ASSIGNED | EN_ROUTE_TO_PICKUP | IN_PROGRESS | COMPLETED | CANCELLED
deriving DecidableEq

/-- DriverStatus enum of the source. -/
inductive DriverStatus where
  | AVAILABLE | ON_TRIP | OFFLINE
deriving DecidableEq

/-- The two concrete RideObserver implementations attached by requestRide.
Their onRideStatusChanged methods only print, so they carry no state. -/
inductive ObserverKind where
  | riderNotifier | driverNotifier
deriving DecidableEq

/-- The two concrete MatchingStrategy implementations; the DispatchService
holds one of them (runtime swappable via setMatchingStrategy). -/
inductive StrategyKind where
  | nearest | bestRated
deriving DecidableEq

/-- Error outcomes reported by DispatchService methods.  The C++ methods
report these situations by printing a message and returning; we surface
them as an explicit error value so they can be reasoned about.
rideHasNoDriver marks the branch of completeRide that in C++ would
dereference a null driver pointer; it is proved unreachable for states
built by the service (see goodState_applyOps). -/
inductive DispatchError where
  | rideNotFound | rideHasNoDriver
deriving DecidableEq

/-- Location: coordinate pair (doubles modelled as rationals). -/
structure Location where
  latitude : ℚ
  longitude : ℚ
deriving DecidableEq

/-- Squared Euclidean distance, mirroring dx*dx + dy*dy of
Location::distanceTo; the C++ function returns its square root. -/
def Location.distSqTo (a b : Location) : ℚ :=
  (a.latitude - b.latitude) * (a.latitude - b.latitude) +
    (a.longitude - b.longitude) * (a.longitude - b.longitude)

/-- Immutable per-driver data: the fields of Driver and of its owned
Vehicle that the dispatch operations read and never write. -/
structure DriverInfo where
  vtype : VehicleType
  loc : Location
  rating : ℚ
  farePerKm : ℚ
deriving DecidableEq

/-- A driver as seen by a matching strategy: identity (C++ pointer,
modelled as the unique user id), immutable data, and current status. -/
structure Driver where
  did : ℕ
  info : DriverInfo
  status : DriverStatus
deriving DecidableEq

/-- RideRequest: rider, pickup, drop, requested vehicle type. -/
structure RideRequest where
  riderId : ℕ
  pickup : Location
  drop : Location
  rtype : VehicleType
deriving DecidableEq

/-- The candidate filter both strategies apply inside their loops:
status == AVAILABLE and vehicle type == requested type. -/
def matchesB (req : RideRequest) (d : Driver) : Bool :=
  decide (d.status = DriverStatus.AVAILABLE ∧ d.info.vtype = req.rtype)

/-- Loop of NearestDriverStrategy::chooseDriver.  The accumulator holds the
current (nearest, minDistance) pair; none stands for (nullptr, infinity),
so the first matching candidate always replaces it (every finite distance
is below infinity).  Replacement needs a strictly smaller distance, so ties
keep the earlier candidate. -/
def chooseNearestAux (req : RideRequest) : Option (Driver × ℚ) → List Driver → Option (Driver × ℚ)
  | acc, [] => acc
  | acc, d :: rest =>
    if matchesB req d then
      match acc with
      | none => chooseNearestAux req (some (d, d.info.loc.distSqTo req.pickup)) rest
      | some (b, m) =>
        if d.info.loc.distSqTo req.pickup < m then
          chooseNearestAux req (some (d, d.info.loc.distSqTo req.pickup)) rest
        else
          chooseNearestAux req (some (b, m)) rest
    else chooseNearestAux req acc rest

/-- NearestDriverStrategy::chooseDriver. -/
def NearestDriverStrategy.chooseDriver (req : RideRequest) (availableDrivers : List Driver) :
    Option Driver :=
  (chooseNearestAux req none availableDrivers).map (fun p => p.1)

/-- Loop of BestRatedDriverStrategy::chooseDriver.  best starts at nullptr
(none) and bestRating at -1.0; a candidate is taken only when its rating
strictly exceeds the running bestRating. -/
def chooseBestAux (req : RideRequest) : Option Driver → ℚ → List Driver → Option Driver
  | best, _, [] => best
  | best, bestRating, d :: rest =>
    if matchesB req d then
      if d.info.rating > bestRating then
        chooseBestAux req (some d) d.info.rating rest
      else chooseBestAux req best bestRating rest
    else chooseBestAux req best bestRating rest

/-- BestRatedDriverStrategy::chooseDriver. -/
def BestRatedDriverStrategy.chooseDriver (req : RideRequest) (availableDrivers : List Driver) :
    Option Driver :=
  chooseBestAux req none (-1) availableDrivers

/-- The ride facts the fare pipeline reads: ride->getDistanceKm() and
ride->getDriver()->getVehicle()->getFarePerKm(). -/
structure RideFacts where
  distanceKm : ℚ
  farePerKm : ℚ
deriving DecidableEq

/-- BaseFareCalculator::BASE_FARE. -/
def BASE_FARE : ℚ := 50

/-- A FareCalculator object: the base stage or a decorator wrapping an
inner calculator (SurgePricingDecorator with its multiplier,
DiscountDecorator with its discount amount). -/
inductive FareCalc where
  | base
  | surge (inner : FareCalc) (surgeMultiplier : ℚ)
  | discount (inner : FareCalc) (discountAmount : ℚ)
deriving DecidableEq

/-- The calculate virtual method of the three FareCalculator classes. -/
def FareCalc.calculate : FareCalc → RideFacts → ℚ
  | .base, f => BASE_FARE + f.distanceKm * f.farePerKm
  | .surge inner m, f => FareCalc.calculate inner f * m
  | .discount inner a, f =>
    let fareBeforeDiscount := FareCalc.calculate inner f
    let finalFare := fareBeforeDiscount - a
    if finalFare < 0 then 0 else finalFare

/-- A Ride object.  The C++ ride id is to_string of an incrementing
counter; distinct counters give distinct strings, so the id is modelled by
the counter value itself.  distanceKm is set at creation from the external
distance function.  Observer notification only prints, so updateStatus
carries no notification state. -/
structure Ride where
  rid : ℕ
  riderId : ℕ
  driver : Option ℕ
  pickup : Location
  drop : Location
  rtype : VehicleType
  status : RideStatus
  distanceKm : ℚ
  fare : ℚ
  paid : Bool
  observers : List ObserverKind
deriving DecidableEq

/-- Ride::updateStatus: sets the status unconditionally, then notifies the
observers (printing only — no further state change). -/
def Ride.updateStatus (r : Ride) (newStatus : RideStatus) : Ride :=
  { r with status := newStatus }

/-- Ride::assignDriver: sets the driver reference, then updateStatus to
DRIVER_ASSIGNED. -/
def Ride.assignDriver (r : Ride) (d : ℕ) : Ride :=
  ({ r with driver := some d }).updateStatus RideStatus.DRIVER_ASSIGNED

/-- Ride::attachObserver: push_back on the observer list. -/
def Ride.attachObserver (r : Ride) (obs : ObserverKind) : Ride :=
  { r with observers := r.observers ++ [obs] }

/-- DummyPaymentProcessor::processPayment: prints and returns true. -/
def DummyPaymentProcessor.processPayment (_ : Ride) (_ : ℚ) : Bool :=
  true

/-- The DispatchService singleton state.  Driver objects are modelled as a
heap keyed by the unique user id: driverInfo holds their immutable fields
and driverStatus the mutable status field.  riderDiscount and riderHistory
likewise model the Rider objects.  availableDrivers stores driver ids
(C++ stores pointers), ongoingRides is the rideId-keyed map, and
completedRides the archive. -/
structure DispatchState where
  driverInfo : ℕ → DriverInfo
  driverStatus : ℕ → DriverStatus
  riderDiscount : ℕ → ℚ
  riderHistory : ℕ → List ℕ
  availableDrivers : List ℕ
  ongoingRides : List (ℕ × Ride)
  completedRides : List Ride
  strategy : StrategyKind
  surgeActive : Bool
  surgeMultiplier : ℚ
  rideCounter : ℕ

/-- The vector<Driver*> the service passes to the strategy: each id in
availableDrivers dereferenced against the driver heap. -/
def candidatesOf (s : DispatchState) : List Driver :=
  s.availableDrivers.map (fun i => { did := i, info := s.driverInfo i, status := s.driverStatus i })

/-- The matchingStrategy->chooseDriver virtual call. -/
def dispatchChoose (s : DispatchState) (req : RideRequest) : Option Driver :=
  match s.strategy with
  | .nearest => NearestDriverStrategy.chooseDriver req (candidatesOf s)
  | .bestRated => BestRatedDriverStrategy.chooseDriver req (candidatesOf s)

/-- ongoingRides.find(rideId) on the association list. -/
def lookupRide (l : List (ℕ × Ride)) (k : ℕ) : Option Ride :=
  match l.find? (fun p => p.1 == k) with
  | none => none
  | some p => some p.2

/-- In-place mutation of the Ride object stored under a key. -/
def setRideAt (l : List (ℕ × Ride)) (k : ℕ) (r : Ride) : List (ℕ × Ride) :=
  l.map (fun p => if p.1 == k then (k, r) else p)

/-- ongoingRides[rideId] = ride (std::map operator[]): assigns in place if
the key exists, otherwise inserts. -/
def insertRide (l : List (ℕ × Ride)) (k : ℕ) (r : Ride) : List (ℕ × Ride) :=
  if (l.find? (fun p => p.1 == k)).isSome then setRideAt l k r else l ++ [(k, r)]

/-- ongoingRides.erase(it). -/
def eraseRide (l : List (ℕ × Ride)) (k : ℕ) : List (ℕ × Ride) :=
  l.filter (fun p => p.1 != k)

/-- DispatchService::registerDriver: driver->setStatus(AVAILABLE) and
push_back onto availableDrivers — no duplicate check. -/
def registerDriver (s : DispatchState) (i : ℕ) : DispatchState :=
  { s with driverStatus := Function.update s.driverStatus i DriverStatus.AVAILABLE,
           availableDrivers := s.availableDrivers ++ [i] }

/-- DispatchService::deregisterDriver: driver->setStatus(OFFLINE) and
erase-remove of every occurrence from availableDrivers. -/
def deregisterDriver (s : DispatchState) (i : ℕ) : DispatchState :=
  { s with driverStatus := Function.update s.driverStatus i DriverStatus.OFFLINE,
           availableDrivers := s.availableDrivers.filter (fun j => j != i) }

/-- DispatchService::requestRide.  Creates the Ride via RideFactory
(incremented counter as id, distance from the external distance function),
appends it to the history of the rider, and asks the strategy for a driver.  On
no match the ride is cancelled and returned unregistered; on a match the
two observers are attached, the driver assigned, marked ON_TRIP, removed
from the pool, and the ride stored in ongoingRides.  The strategy call is
written against s rather than the bookkeeping state s1: in the source it
happens after the history append, but it reads only the strategy, the
available pool and the driver objects, none of which that append touches,
so the two states give the strategy identical (indeed definitionally
equal) inputs. -/
def requestRide (dist : Location → Location → ℚ) (s : DispatchState)
    (riderId : ℕ) (pickup drop : Location) (t : VehicleType) : DispatchState × Ride :=
  let rid := s.rideCounter + 1
  let ride : Ride :=
    { rid := rid, riderId := riderId, driver := none, pickup := pickup, drop := drop,
      rtype := t, status := RideStatus.REQUESTED, distanceKm := dist pickup drop,
      fare := 0, paid := false, observers := [] }
  let s1 : DispatchState :=
    { s with rideCounter := rid,
             riderHistory := Function.update s.riderHistory riderId (s.riderHistory riderId ++ [rid]) }
  let req : RideRequest := { riderId := riderId, pickup := pickup, drop := drop, rtype := t }
  match dispatchChoose s req with
  | none => (s1, ride.updateStatus RideStatus.CANCELLED)
  | some d =>
    let ride1 := ((ride.attachObserver ObserverKind.riderNotifier).attachObserver
        ObserverKind.driverNotifier).assignDriver d.did
    ({ s1 with driverStatus := Function.update s1.driverStatus d.did DriverStatus.ON_TRIP,
               availableDrivers := s1.availableDrivers.filter (fun j => j != d.did),
               ongoingRides := insertRide s1.ongoingRides rid ride1 }, ride1)

/-- DispatchService::updateRideStatus: looks up the ongoing ride; reports
not-found if absent, otherwise delegates to Ride::updateStatus. -/
def updateRideStatus (s : DispatchState) (rideId : ℕ) (newStatus : RideStatus) :
    DispatchState × Option DispatchError :=
  match lookupRide s.ongoingRides rideId with
  | none => (s, some DispatchError.rideNotFound)
  | some r =>
    ({ s with ongoingRides := setRideAt s.ongoingRides rideId (r.updateStatus newStatus) }, none)

/-- The FareCalculator chain completeRide builds: the base calculator,
wrapped in SurgePricingDecorator when surge is active, wrapped in
DiscountDecorator when the rider of the ride has a positive discount. -/
def completeCalc (s : DispatchState) (r : Ride) : FareCalc :=
  let calc1 :=
    if s.surgeActive then FareCalc.surge FareCalc.base s.surgeMultiplier else FareCalc.base
  if s.riderDiscount r.riderId > 0 then
    FareCalc.discount calc1 (s.riderDiscount r.riderId)
  else calc1

/-- DispatchService::completeRide: looks up the ongoing ride (not-found if
absent); marks it COMPLETED; builds the fare pipeline (base, surge if
active, discount if the rider has one) and sets the fare; processes the
payment and sets the paid flag on success; frees the driver (AVAILABLE,
back into the pool); moves the ride from ongoingRides to completedRides.
The driver = none branch corresponds to a null-pointer dereference in the
C++ code and never arises for service-built states. -/
def completeRide (s : DispatchState) (rideId : ℕ) : DispatchState × Option DispatchError :=
  match lookupRide s.ongoingRides rideId with
  | none => (s, some DispatchError.rideNotFound)
  | some ride =>
    let ride1 := ride.updateStatus RideStatus.COMPLETED
    match ride1.driver with
    | none => (s, some DispatchError.rideHasNoDriver)
    | some drid =>
      let finalFare :=
        (completeCalc s ride1).calculate
          { distanceKm := ride1.distanceKm, farePerKm := (s.driverInfo drid).farePerKm }
      let ride2 := { ride1 with fare := finalFare }
      let ride3 :=
        if DummyPaymentProcessor.processPayment ride2 finalFare then
          { ride2 with paid := true }
        else ride2
      ({ s with driverStatus := Function.update s.driverStatus drid DriverStatus.AVAILABLE,
                availableDrivers := s.availableDrivers ++ [drid],
                ongoingRides := eraseRide s.ongoingRides rideId,
                completedRides := s.completedRides ++ [ride3] }, none)

/-- DispatchService::activateSurge. -/
def activateSurge (s : DispatchState) (m : ℚ) : DispatchState :=
  { s with surgeActive := true, surgeMultiplier := m }

/-- DispatchService::deactivateSurge. -/
def deactivateSurge (s : DispatchState) : DispatchState :=
  { s with surgeActive := false, surgeMultiplier := 1 }

/-- DispatchService::setMatchingStrategy. -/
def setMatchingStrategy (s : DispatchState) (k : StrategyKind) : DispatchState :=
  { s with strategy := k }

/-- One public DispatchService operation, as data, so that arbitrary call
sequences can be quantified over. -/
inductive Op where
  | register (i : ℕ)
  | deregister (i : ℕ)
  | request (riderId : ℕ) (pickup drop : Location) (t : VehicleType)
  | update (rideId : ℕ) (newStatus : RideStatus)
  | complete (rideId : ℕ)
  | setStrategy (k : StrategyKind)
  | surgeOn (m : ℚ)
  | surgeOff

/-- Apply one operation to the service state (return values discarded). -/
def applyOp (dist : Location → Location → ℚ) (s : DispatchState) : Op → DispatchState
  | .register i => registerDriver s i
  | .deregister i => deregisterDriver s i
  | .request riderId pickup drop t => (requestRide dist s riderId pickup drop t).1
  | .update rideId newStatus => (updateRideStatus s rideId newStatus).1
  | .complete rideId => (completeRide s rideId).1
  | .setStrategy k => setMatchingStrategy s k
  | .surgeOn m => activateSurge s m
  | .surgeOff => deactivateSurge s

/-- Apply a sequence of operations left to right. -/
def applyOps (dist : Location → Location → ℚ) (s : DispatchState) (ops : List Op) : DispatchState :=
  ops.foldl (applyOp dist) s

/-- The service at startup: empty pool, no rides, NearestDriverStrategy,
no surge, ride counter 0.  The driver and rider heaps are parameters
(the objects live outside the service); st0 gives the status the driver
objects hold before their first registration. -/
def initState (dinfo : ℕ → DriverInfo) (st0 : ℕ → DriverStatus) (rdisc : ℕ → ℚ) : DispatchState :=
  { driverInfo := dinfo, driverStatus := st0, riderDiscount := rdisc,
    riderHistory := fun _ => [], availableDrivers := [], ongoingRides := [],
    completedRides := [], strategy := StrategyKind.nearest, surgeActive := false,
    surgeMultiplier := 1, rideCounter := 0 }

/-- Soundness half of invariant (b): every driver id in the available
pool has status AVAILABLE.  This holds for any initial driver statuses,
including the AVAILABLE that the Driver constructor installs. -/
def PoolSound (s : DispatchState) : Prop :=
  ∀ i ∈ s.availableDrivers, s.driverStatus i = DriverStatus.AVAILABLE

/-- A driver object the service has never touched: it still carries its
construction status st0 i, is outside the pool, and no ongoing ride
references it. -/
def DriverUntouched (st0 : ℕ → DriverStatus) (s : DispatchState) (i : ℕ) : Prop :=
  s.driverStatus i = st0 i ∧ i ∉ s.availableDrivers ∧
    ∀ p ∈ s.ongoingRides, p.2.driver ≠ some i

/-- Completeness half of invariant (b), relative to the construction
statuses st0: every driver is either governed by the pool (AVAILABLE
implies present) or untouched by the service. -/
def PoolComplete (st0 : ℕ → DriverStatus) (s : DispatchState) : Prop :=
  ∀ i, (s.driverStatus i = DriverStatus.AVAILABLE → i ∈ s.availableDrivers) ∨
    DriverUntouched st0 s i

/-- Well-formedness of the ongoing registry that the service maintains:
every stored key is at most the ride counter, each stored ride carries its
own key as id, and every ongoing ride has an assigned driver. -/
def GoodState (s : DispatchState) : Prop :=
  ∀ p ∈ s.ongoingRides, p.1 ≤ s.rideCounter ∧ p.2.rid = p.1 ∧ p.2.driver.isSome = true

/-- A concrete completed ride, used to exhibit that Ride::updateStatus
accepts transitions out of COMPLETED. -/
def rideCompleted : Ride :=
  { rid := 1, riderId := 1, driver := some 0, pickup := ⟨0, 0⟩, drop := ⟨1, 1⟩,
    rtype := VehicleType.SEDAN, status := RideStatus.COMPLETED, distanceKm := 2,
    fare := 100, paid := true, observers := [] }

/-- A concrete in-progress ride that already has a driver, used to exhibit
that Ride::assignDriver overwrites an existing driver reference. -/
def rideWithDriver : Ride :=
  { rid := 2, riderId := 1, driver := some 5, pickup := ⟨0, 0⟩, drop := ⟨1, 1⟩,
    rtype := VehicleType.SEDAN, status := RideStatus.IN_PROGRESS, distanceKm := 2,
    fare := 0, paid := false, observers := [] }

/-- Concrete request used to exercise the matching strategies. -/
def reqW : RideRequest :=
  { riderId := 1, pickup := ⟨0, 0⟩, drop := ⟨5, 5⟩, rtype := VehicleType.SEDAN }

/-- An available sedan driver 5 units from the pickup of reqW. -/
def driverFar : Driver :=
  { did := 1, info := { vtype := VehicleType.SEDAN, loc := ⟨3, 4⟩, rating := 4, farePerKm := 15 },
    status := DriverStatus.AVAILABLE }

/-- An available sedan driver closer to the pickup of reqW, lower rated. -/
def driverNear : Driver :=
  { did := 2, info := { vtype := VehicleType.SEDAN, loc := ⟨1, 1⟩, rating := 3, farePerKm := 15 },
    status := DriverStatus.AVAILABLE }

/-- An available sedan driver whose rating is the -1 sentinel that
BestRatedDriverStrategy starts its maximum search from. -/
def driverRatedMinusOne : Driver :=
  { did := 3, info := { vtype := VehicleType.SEDAN, loc := ⟨1, 1⟩, rating := -1, farePerKm := 15 },
    status := DriverStatus.AVAILABLE }

/-- An offline sedan driver: filtered out by both strategies. -/
def driverOffline : Driver :=
  { did := 4, info := { vtype := VehicleType.SEDAN, loc := ⟨2, 2⟩, rating := 5, farePerKm := 15 },
    status := DriverStatus.OFFLINE }

/-- An available SUV driver: wrong category for reqW. -/
def driverSuv : Driver :=
  { did := 5, info := { vtype := VehicleType.SUV, loc := ⟨0, 0⟩, rating := 5, farePerKm := 20 },
    status := DriverStatus.AVAILABLE }

/-- A concrete ride-creation distance function (the squared Euclidean
distance) used to instantiate the service model in witnesses. -/
def distW : Location → Location → ℚ := Location.distSqTo

/-- A concrete driver heap: every id holds an available-for-hire sedan
profile. -/
def dinfoW : ℕ → DriverInfo :=
  fun _ => { vtype := VehicleType.SEDAN, loc := ⟨0, 0⟩, rating := 4, farePerKm := 15 }

/-- Concrete pre-registration statuses: no driver object is AVAILABLE. -/
def stOffW : ℕ → DriverStatus := fun _ => DriverStatus.OFFLINE

/-- The statuses driver objects actually carry before registration: the
Driver constructor initializes status(AVAILABLE). -/
def stAvailW : ℕ → DriverStatus := fun _ => DriverStatus.AVAILABLE

/-- Concrete rider discounts: nobody has one. -/
def rdiscW : ℕ → ℚ := fun _ => 0

/-- A concrete operation sequence: register driver 0, then have rider 7
request a sedan ride; the request matches driver 0 and ride 1 becomes
ongoing. -/
def opsW : List Op :=
  [Op.register 0, Op.request 7 ⟨0, 0⟩ ⟨3, 4⟩ VehicleType.SEDAN]

/-- The ongoing ride that opsW produces. -/
def rideW : Ride :=
  { rid := 1, riderId := 7, driver := some 0, pickup := ⟨0, 0⟩, drop := ⟨3, 4⟩,
    rtype := VehicleType.SEDAN, status := RideStatus.DRIVER_ASSIGNED,
    distanceKm := distW ⟨0, 0⟩ ⟨3, 4⟩, fare := 0, paid := false,
    observers := [ObserverKind.riderNotifier, ObserverKind.driverNotifier] }

/-
Theorems.
-/

/-- matchesB unfolded to a proposition. -/
theorem matchesB_iff (req : RideRequest) (d : Driver) :
    matchesB req d = true ↔ d.status = DriverStatus.AVAILABLE ∧ d.info.vtype = req.rtype := by
  simp [matchesB]

/-- Squared distances are nonnegative. -/
theorem distSqTo_nonneg (a b : Location) : 0 ≤ a.distSqTo b :=
  add_nonneg (mul_self_nonneg _) (mul_self_nonneg _)

/-- Comparing Euclidean distances is the same as comparing their squares:
square root is monotone. -/
theorem sqrt_le_sqrt_rat {a b : ℚ} (h : a ≤ b) : Real.sqrt a ≤ Real.sqrt b :=
  Real.sqrt_le_sqrt (by exact_mod_cast h)

/-- Comparing Euclidean distances is the same as comparing their squares:
square root is strictly monotone on nonnegative arguments. -/
theorem sqrt_lt_sqrt_rat {a b : ℚ} (ha : 0 ≤ a) (h : a < b) : Real.sqrt a < Real.sqrt b :=
  Real.sqrt_lt_sqrt (by exact_mod_cast ha) (by exact_mod_cast h)

/-- chooseNearestAux on a non-matching head skips it. -/
theorem chooseNearestAux_cons_not (req : RideRequest) (acc : Option (Driver × ℚ)) (d : Driver)
    (rest : List Driver) (h : matchesB req d = false) :
    chooseNearestAux req acc (d :: rest) = chooseNearestAux req acc rest := by
  simp [chooseNearestAux, h]

/-- chooseNearestAux with empty accumulator takes the first matching
candidate (its distance is finite, the initial minDistance infinite). -/
theorem chooseNearestAux_cons_none (req : RideRequest) (d : Driver) (rest : List Driver)
    (h : matchesB req d = true) :
    chooseNearestAux req none (d :: rest) =
      chooseNearestAux req (some (d, d.info.loc.distSqTo req.pickup)) rest := by
  simp [chooseNearestAux, h]

/-- chooseNearestAux replaces the running best on a strictly smaller
distance. -/
theorem chooseNearestAux_cons_lt (req : RideRequest) (b : Driver) (m : ℚ) (d : Driver)
    (rest : List Driver) (h : matchesB req d = true)
    (hlt : d.info.loc.distSqTo req.pickup < m) :
    chooseNearestAux req (some (b, m)) (d :: rest) =
      chooseNearestAux req (some (d, d.info.loc.distSqTo req.pickup)) rest := by
  simp [chooseNearestAux, h, hlt]

/-- chooseNearestAux keeps the running best on a tie or larger distance. -/
theorem chooseNearestAux_cons_ge (req : RideRequest) (b : Driver) (m : ℚ) (d : Driver)
    (rest : List Driver) (h : matchesB req d = true)
    (hge : ¬ d.info.loc.distSqTo req.pickup < m) :
    chooseNearestAux req (some (b, m)) (d :: rest) = chooseNearestAux req (some (b, m)) rest := by
  simp [chooseNearestAux, h, hge]

/-- Running-best invariant of the nearest loop: starting from best b, the
loop ends at some candidate c whose distance is minimal among b and the
matching candidates of the remaining list; c is b itself, or a matching
list element strictly closer than b and than every matching element before
it. -/
theorem chooseNearestAux_some_spec (req : RideRequest) (l : List Driver) :
    ∀ b : Driver, ∃ c,
      chooseNearestAux req (some (b, b.info.loc.distSqTo req.pickup)) l =
        some (c, c.info.loc.distSqTo req.pickup) ∧
      c.info.loc.distSqTo req.pickup ≤ b.info.loc.distSqTo req.pickup ∧
      (∀ d ∈ l, matchesB req d = true →
        c.info.loc.distSqTo req.pickup ≤ d.info.loc.distSqTo req.pickup) ∧
      (c = b ∨ ∃ l₁ l₂, l = l₁ ++ c :: l₂ ∧ matchesB req c = true ∧
        c.info.loc.distSqTo req.pickup < b.info.loc.distSqTo req.pickup ∧
        ∀ d ∈ l₁, matchesB req d = true →
          c.info.loc.distSqTo req.pickup < d.info.loc.distSqTo req.pickup) := by
  induction l with
  | nil =>
    intro b
    exact ⟨b, rfl, le_refl _, fun d hd => absurd hd (List.not_mem_nil d), Or.inl rfl⟩
  | cons d rest ih =>
    intro b
    by_cases hm : matchesB req d = true
    · by_cases hlt : d.info.loc.distSqTo req.pickup < b.info.loc.distSqTo req.pickup
      · obtain ⟨c, hEq, hle, hall, hdisj⟩ := ih d
        refine ⟨c, ?_, le_trans hle hlt.le, ?_, ?_⟩
        · rw [chooseNearestAux_cons_lt req b _ d rest hm hlt, hEq]
        · intro x hx hmx
          rcases List.mem_cons.mp hx with rfl | hx'
          · exact hle
          · exact hall x hx' hmx
        · right
          rcases hdisj with rfl | ⟨l₁, l₂, hsplit, hmc, hclt, hstrict⟩
          · exact ⟨[], rest, rfl, hm, hlt, fun x hx => absurd hx (List.not_mem_nil x)⟩
          · refine ⟨d :: l₁, l₂, by rw [hsplit]; rfl, hmc, lt_trans hclt hlt, ?_⟩
            intro x hx hmx
            rcases List.mem_cons.mp hx with rfl | hx'
            · exact hclt
            · exact hstrict x hx' hmx
      · obtain ⟨c, hEq, hle, hall, hdisj⟩ := ih b
        have hge := not_lt.mp hlt
        refine ⟨c, ?_, hle, ?_, ?_⟩
        · rw [chooseNearestAux_cons_ge req b _ d rest hm hlt, hEq]
        · intro x hx hmx
          rcases List.mem_cons.mp hx with rfl | hx'
          · exact le_trans hle hge
          · exact hall x hx' hmx
        · rcases hdisj with rfl | ⟨l₁, l₂, hsplit, hmc, hclt, hstrict⟩
          · exact Or.inl rfl
          · refine Or.inr ⟨d :: l₁, l₂, by rw [hsplit]; rfl, hmc, hclt, ?_⟩
            intro x hx hmx
            rcases List.mem_cons.mp hx with rfl | hx'
            · exact lt_of_lt_of_le hclt hge
            · exact hstrict x hx' hmx
    · simp only [Bool.not_eq_true] at hm
      obtain ⟨c, hEq, hle, hall, hdisj⟩ := ih b
      refine ⟨c, ?_, hle, ?_, ?_⟩
      · rw [chooseNearestAux_cons_not req _ d rest hm, hEq]
      · intro x hx hmx
        rcases List.mem_cons.mp hx with rfl | hx'
        · rw [hm] at hmx; cases hmx
        · exact hall x hx' hmx
      · rcases hdisj with rfl | ⟨l₁, l₂, hsplit, hmc, hclt, hstrict⟩
        · exact Or.inl rfl
        · refine Or.inr ⟨d :: l₁, l₂, by rw [hsplit]; rfl, hmc, hclt, ?_⟩
          intro x hx hmx
          rcases List.mem_cons.mp hx with rfl | hx'
          · rw [hm] at hmx; cases hmx
          · exact hstrict x hx' hmx

/-- Full characterisation of the nearest loop from the initial
(nullptr, infinity) accumulator. -/
theorem chooseNearestAux_none_spec (req : RideRequest) (l : List Driver) :
    (chooseNearestAux req none l = none ∧ ∀ d ∈ l, matchesB req d = false) ∨
    (∃ c, chooseNearestAux req none l = some (c, c.info.loc.distSqTo req.pickup) ∧
      matchesB req c = true ∧
      (∀ d ∈ l, matchesB req d = true →
        c.info.loc.distSqTo req.pickup ≤ d.info.loc.distSqTo req.pickup) ∧
      ∃ l₁ l₂, l = l₁ ++ c :: l₂ ∧
        ∀ d ∈ l₁, matchesB req d = true →
          c.info.loc.distSqTo req.pickup < d.info.loc.distSqTo req.pickup) := by
  induction l with
  | nil => exact Or.inl ⟨rfl, fun d hd => absurd hd (List.not_mem_nil d)⟩
  | cons d rest ih =>
    by_cases hm : matchesB req d = true
    · right
      obtain ⟨c, hEq, hle, hall, hdisj⟩ := chooseNearestAux_some_spec req rest d
      refine ⟨c, ?_, ?_, ?_, ?_⟩
      · rw [chooseNearestAux_cons_none req d rest hm, hEq]
      · rcases hdisj with rfl | ⟨_, _, _, hmc, _, _⟩
        · exact hm
        · exact hmc
      · intro x hx hmx
        rcases List.mem_cons.mp hx with rfl | hx'
        · exact hle
        · exact hall x hx' hmx
      · rcases hdisj with rfl | ⟨l₁, l₂, hsplit, _, hclt, hstrict⟩
        · exact ⟨[], rest, rfl, fun x hx => absurd hx (List.not_mem_nil x)⟩
        · refine ⟨d :: l₁, l₂, by rw [hsplit]; rfl, ?_⟩
          intro x hx hmx
          rcases List.mem_cons.mp hx with rfl | hx'
          · exact hclt
          · exact hstrict x hx' hmx
    · simp only [Bool.not_eq_true] at hm
      rcases ih with ⟨hEq, hall⟩ | ⟨c, hEq, hmc, hall, l₁, l₂, hsplit, hstrict⟩
      · refine Or.inl ⟨?_, ?_⟩
        · rw [chooseNearestAux_cons_not req none d rest hm, hEq]
        · intro x hx
          rcases List.mem_cons.mp hx with rfl | hx'
          · exact hm
          · exact hall x hx'
      · refine Or.inr ⟨c, ?_, hmc, ?_, d :: l₁, l₂, by rw [hsplit]; rfl, ?_⟩
        · rw [chooseNearestAux_cons_not req none d rest hm, hEq]
        · intro x hx hmx
          rcases List.mem_cons.mp hx with rfl | hx'
          · rw [hm] at hmx; cases hmx
          · exact hall x hx' hmx
        · intro x hx hmx
          rcases List.mem_cons.mp hx with rfl | hx'
          · rw [hm] at hmx; cases hmx
          · exact hstrict x hx' hmx

/-- C3: NearestDriverStrategy chooseDriver returns none exactly when no
available candidate matches the requested vehicle category; otherwise it
returns an available matching-category candidate whose Euclidean distance
to the pickup is minimal among matching candidates, and every matching
candidate listed before it is strictly farther (ties go to the
first-encountered candidate). -/
theorem nearest_strategy_spec (req : RideRequest) (l : List Driver) :
    (NearestDriverStrategy.chooseDriver req l = none ↔ ∀ d ∈ l, matchesB req d = false) ∧
    (∀ c, NearestDriverStrategy.chooseDriver req l = some c →
      c.status = DriverStatus.AVAILABLE ∧ c.info.vtype = req.rtype ∧
      (∀ d ∈ l, matchesB req d = true →
        Real.sqrt (c.info.loc.distSqTo req.pickup) ≤ Real.sqrt (d.info.loc.distSqTo req.pickup)) ∧
      ∃ l₁ l₂, l = l₁ ++ c :: l₂ ∧
        ∀ d ∈ l₁, matchesB req d = true →
          Real.sqrt (c.info.loc.distSqTo req.pickup) <
            Real.sqrt (d.info.loc.distSqTo req.pickup)) := by
  unfold NearestDriverStrategy.chooseDriver
  rcases chooseNearestAux_none_spec req l with ⟨hEq, hall⟩ |
    ⟨c, hEq, hmc, hall, l₁, l₂, hsplit, hstrict⟩
  · constructor
    · rw [hEq]
      exact ⟨fun _ => hall, fun _ => rfl⟩
    · intro x hx
      rw [hEq] at hx
      cases hx
  · constructor
    · rw [hEq]
      constructor
      · intro h
        cases h
      · intro h
        have hcl : c ∈ l := by
          rw [hsplit]
          exact List.mem_append_right _ (List.mem_cons_self _ _)
        rw [h c hcl] at hmc
        cases hmc
    · intro x hx
      rw [hEq] at hx
      simp only [Option.map_some'] at hx
      have hcx : c = x := Option.some.inj hx
      subst hcx
      obtain ⟨h1, h2⟩ := (matchesB_iff req c).mp hmc
      refine ⟨h1, h2, ?_, l₁, l₂, hsplit, ?_⟩
      · intro d hd hmd
        exact sqrt_le_sqrt_rat (hall d hd hmd)
      · intro d hd hmd
        exact sqrt_lt_sqrt_rat (distSqTo_nonneg _ _) (hstrict d hd hmd)

/-- C3 witness: on a concrete candidate list holding an offline sedan, an
available SUV and an available sedan, the strategy picks the available
sedan, and the theorem applies to it. -/
theorem nearest_strategy_spec_witness :
    NearestDriverStrategy.chooseDriver reqW [driverOffline, driverSuv, driverNear] =
      some driverNear ∧
    driverNear.status = DriverStatus.AVAILABLE ∧ driverNear.info.vtype = reqW.rtype := by
  have h := (nearest_strategy_spec reqW [driverOffline, driverSuv, driverNear]).2
    driverNear (by decide)
  exact ⟨by decide, h.1, h.2.1⟩

/-- chooseBestAux on a non-matching head skips it. -/
theorem chooseBestAux_cons_not (req : RideRequest) (best : Option Driver) (m : ℚ) (d : Driver)
    (rest : List Driver) (h : matchesB req d = false) :
    chooseBestAux req best m (d :: rest) = chooseBestAux req best m rest := by
  simp [chooseBestAux, h]

/-- chooseBestAux takes a matching candidate whose rating strictly exceeds
the running bestRating. -/
theorem chooseBestAux_cons_gt (req : RideRequest) (best : Option Driver) (m : ℚ) (d : Driver)
    (rest : List Driver) (h : matchesB req d = true) (hgt : d.info.rating > m) :
    chooseBestAux req best m (d :: rest) = chooseBestAux req (some d) d.info.rating rest := by
  simp [chooseBestAux, h, hgt]

/-- chooseBestAux keeps the running best on a tie or lower rating. -/
theorem chooseBestAux_cons_le (req : RideRequest) (best : Option Driver) (m : ℚ) (d : Driver)
    (rest : List Driver) (h : matchesB req d = true) (hle : ¬ d.info.rating > m) :
    chooseBestAux req best m (d :: rest) = chooseBestAux req best m rest := by
  simp [chooseBestAux, h, hle]

/-- Running-best invariant of the best-rated loop: starting from best b
with bestRating = b.rating, the loop ends at some candidate c whose rating
dominates b and every matching candidate of the remaining list; c is b
itself, or a matching list element strictly better rated than b and than
every matching element before it. -/
theorem chooseBestAux_some_spec (req : RideRequest) (l : List Driver) :
    ∀ b : Driver, ∃ c,
      chooseBestAux req (some b) b.info.rating l = some c ∧
      b.info.rating ≤ c.info.rating ∧
      (∀ d ∈ l, matchesB req d = true → d.info.rating ≤ c.info.rating) ∧
      (c = b ∨ ∃ l₁ l₂, l = l₁ ++ c :: l₂ ∧ matchesB req c = true ∧
        b.info.rating < c.info.rating ∧
        ∀ d ∈ l₁, matchesB req d = true → d.info.rating < c.info.rating) := by
  induction l with
  | nil =>
    intro b
    exact ⟨b, rfl, le_refl _, fun d hd => absurd hd (List.not_mem_nil d), Or.inl rfl⟩
  | cons d rest ih =>
    intro b
    by_cases hm : matchesB req d = true
    · by_cases hgt : d.info.rating > b.info.rating
      · obtain ⟨c, hEq, hle, hall, hdisj⟩ := ih d
        refine ⟨c, ?_, le_trans hgt.le hle, ?_, ?_⟩
        · rw [chooseBestAux_cons_gt req (some b) b.info.rating d rest hm hgt, hEq]
        · intro x hx hmx
          rcases List.mem_cons.mp hx with rfl | hx'
          · exact hle
          · exact hall x hx' hmx
        · right
          rcases hdisj with rfl | ⟨l₁, l₂, hsplit, hmc, hclt, hstrict⟩
          · exact ⟨[], rest, rfl, hm, hgt, fun x hx => absurd hx (List.not_mem_nil x)⟩
          · refine ⟨d :: l₁, l₂, by rw [hsplit]; rfl, hmc, lt_trans hgt hclt, ?_⟩
            intro x hx hmx
            rcases List.mem_cons.mp hx with rfl | hx'
            · exact hclt
            · exact hstrict x hx' hmx
      · obtain ⟨c, hEq, hle, hall, hdisj⟩ := ih b
        have hge := not_lt.mp hgt
        refine ⟨c, ?_, hle, ?_, ?_⟩
        · rw [chooseBestAux_cons_le req (some b) b.info.rating d rest hm hgt, hEq]
        · intro x hx hmx
          rcases List.mem_cons.mp hx with rfl | hx'
          · exact le_trans hge hle
          · exact hall x hx' hmx
        · rcases hdisj with rfl | ⟨l₁, l₂, hsplit, hmc, hclt, hstrict⟩
          · exact Or.inl rfl
          · refine Or.inr ⟨d :: l₁, l₂, by rw [hsplit]; rfl, hmc, hclt, ?_⟩
            intro x hx hmx
            rcases List.mem_cons.mp hx with rfl | hx'
            · exact lt_of_le_of_lt hge hclt
            · exact hstrict x hx' hmx
    · simp only [Bool.not_eq_true] at hm
      obtain ⟨c, hEq, hle, hall, hdisj⟩ := ih b
      refine ⟨c, ?_, hle, ?_, ?_⟩
      · rw [chooseBestAux_cons_not req (some b) b.info.rating d rest hm, hEq]
      · intro x hx hmx
        rcases List.mem_cons.mp hx with rfl | hx'
        · rw [hm] at hmx; cases hmx
        · exact hall x hx' hmx
      · rcases hdisj with rfl | ⟨l₁, l₂, hsplit, hmc, hclt, hstrict⟩
        · exact Or.inl rfl
        · refine Or.inr ⟨d :: l₁, l₂, by rw [hsplit]; rfl, hmc, hclt, ?_⟩
          intro x hx hmx
          rcases List.mem_cons.mp hx with rfl | hx'
          · rw [hm] at hmx; cases hmx
          · exact hstrict x hx' hmx

/-- Full characterisation of the best-rated loop from the initial
(nullptr, -1) accumulator: a matching candidate rated at most -1 can never
be taken, because the running bestRating starts at -1 and replacement
requires a strictly greater rating. -/
theorem chooseBestAux_none_spec (req : RideRequest) (l : List Driver) :
    (chooseBestAux req none (-1) l = none ∧
      ∀ d ∈ l, matchesB req d = true → d.info.rating ≤ -1) ∨
    (∃ c, chooseBestAux req none (-1) l = some c ∧ matchesB req c = true ∧
      -1 < c.info.rating ∧
      (∀ d ∈ l, matchesB req d = true → d.info.rating ≤ c.info.rating) ∧
      ∃ l₁ l₂, l = l₁ ++ c :: l₂ ∧
        ∀ d ∈ l₁, matchesB req d = true → d.info.rating < c.info.rating) := by
  induction l with
  | nil => exact Or.inl ⟨rfl, fun d hd => absurd hd (List.not_mem_nil d)⟩
  | cons d rest ih =>
    by_cases hm : matchesB req d = true
    · by_cases hgt : d.info.rating > (-1 : ℚ)
      · right
        obtain ⟨c, hEq, hle, hall, hdisj⟩ := chooseBestAux_some_spec req rest d
        refine ⟨c, ?_, ?_, lt_of_lt_of_le hgt hle, ?_, ?_⟩
        · rw [chooseBestAux_cons_gt req none (-1) d rest hm hgt, hEq]
        · rcases hdisj with rfl | ⟨_, _, _, hmc, _, _⟩
          · exact hm
          · exact hmc
        · intro x hx hmx
          rcases List.mem_cons.mp hx with rfl | hx'
          · exact hle
          · exact hall x hx' hmx
        · rcases hdisj with rfl | ⟨l₁, l₂, hsplit, _, hclt, hstrict⟩
          · exact ⟨[], rest, rfl, fun x hx => absurd hx (List.not_mem_nil x)⟩
          · refine ⟨d :: l₁, l₂, by rw [hsplit]; rfl, ?_⟩
            intro x hx hmx
            rcases List.mem_cons.mp hx with rfl | hx'
            · exact hclt
            · exact hstrict x hx' hmx
      · have hle1 : d.info.rating ≤ -1 := not_lt.mp hgt
        rcases ih with ⟨hEq, hall⟩ | ⟨c, hEq, hmc, hgtc, hall, l₁, l₂, hsplit, hstrict⟩
        · refine Or.inl ⟨?_, ?_⟩
          · rw [chooseBestAux_cons_le req none (-1) d rest hm hgt, hEq]
          · intro x hx hmx
            rcases List.mem_cons.mp hx with rfl | hx'
            · exact hle1
            · exact hall x hx' hmx
        · refine Or.inr ⟨c, ?_, hmc, hgtc, ?_, d :: l₁, l₂, by rw [hsplit]; rfl, ?_⟩
          · rw [chooseBestAux_cons_le req none (-1) d rest hm hgt, hEq]
          · intro x hx hmx
            rcases List.mem_cons.mp hx with rfl | hx'
            · exact le_trans hle1 hgtc.le
            · exact hall x hx' hmx
          · intro x hx hmx
            rcases List.mem_cons.mp hx with rfl | hx'
            · exact lt_of_le_of_lt hle1 hgtc
            · exact hstrict x hx' hmx
    · simp only [Bool.not_eq_true] at hm
      rcases ih with ⟨hEq, hall⟩ | ⟨c, hEq, hmc, hgtc, hall, l₁, l₂, hsplit, hstrict⟩
      · refine Or.inl ⟨?_, ?_⟩
        · rw [chooseBestAux_cons_not req none (-1) d rest hm, hEq]
        · intro x hx hmx
          rcases List.mem_cons.mp hx with rfl | hx'
          · rw [hm] at hmx; cases hmx
          · exact hall x hx' hmx
      · refine Or.inr ⟨c, ?_, hmc, hgtc, ?_, d :: l₁, l₂, by rw [hsplit]; rfl, ?_⟩
        · rw [chooseBestAux_cons_not req none (-1) d rest hm, hEq]
        · intro x hx hmx
          rcases List.mem_cons.mp hx with rfl | hx'
          · rw [hm] at hmx; cases hmx
          · exact hall x hx' hmx
        · intro x hx hmx
          rcases List.mem_cons.mp hx with rfl | hx'
          · rw [hm] at hmx; cases hmx
          · exact hstrict x hx' hmx

/-- C4 counterexample: an available sedan driver rated exactly -1 matches
the request, yet BestRatedDriverStrategy returns no driver, because its
maximum search starts from the sentinel bestRating = -1.0 and only a
strictly greater rating is ever taken. -/
theorem bestRated_claim_counterexample :
    matchesB reqW driverRatedMinusOne = true ∧
    BestRatedDriverStrategy.chooseDriver reqW [driverRatedMinusOne] = none := by
  decide

/-- C4 amended: BestRatedDriverStrategy chooseDriver returns none exactly
when every available matching-category candidate has rating at most -1 (in
particular when no candidate matches); otherwise it returns an available
matching-category candidate with rating above -1 that is maximal among
matching candidates, every matching candidate listed before it being
strictly lower rated (ties go to the first-encountered candidate). -/
theorem bestRated_strategy_spec (req : RideRequest) (l : List Driver) :
    (BestRatedDriverStrategy.chooseDriver req l = none ↔
      ∀ d ∈ l, matchesB req d = true → d.info.rating ≤ -1) ∧
    (∀ c, BestRatedDriverStrategy.chooseDriver req l = some c →
      c.status = DriverStatus.AVAILABLE ∧ c.info.vtype = req.rtype ∧ -1 < c.info.rating ∧
      (∀ d ∈ l, matchesB req d = true → d.info.rating ≤ c.info.rating) ∧
      ∃ l₁ l₂, l = l₁ ++ c :: l₂ ∧
        ∀ d ∈ l₁, matchesB req d = true → d.info.rating < c.info.rating) := by
  unfold BestRatedDriverStrategy.chooseDriver
  rcases chooseBestAux_none_spec req l with ⟨hEq, hall⟩ |
    ⟨c, hEq, hmc, hgtc, hall, l₁, l₂, hsplit, hstrict⟩
  · constructor
    · rw [hEq]
      exact ⟨fun _ => hall, fun _ => rfl⟩
    · intro x hx
      rw [hEq] at hx
      cases hx
  · constructor
    · rw [hEq]
      constructor
      · intro h
        cases h
      · intro h
        have hcl : c ∈ l := by
          rw [hsplit]
          exact List.mem_append_right _ (List.mem_cons_self _ _)
        exact absurd (h c hcl hmc) (not_le.mpr hgtc)
    · intro x hx
      rw [hEq] at hx
      have hcx : c = x := Option.some.inj hx
      subst hcx
      obtain ⟨h1, h2⟩ := (matchesB_iff req c).mp hmc
      exact ⟨h1, h2, hgtc, hall, l₁, l₂, hsplit, hstrict⟩

/-- C4 witness: on two available sedan candidates rated 4 and 3 the
strategy picks the higher-rated first one, and the theorem applies. -/
theorem bestRated_strategy_spec_witness :
    BestRatedDriverStrategy.chooseDriver reqW [driverFar, driverNear] = some driverFar ∧
    driverFar.status = DriverStatus.AVAILABLE ∧ -1 < driverFar.info.rating := by
  have h := (bestRated_strategy_spec reqW [driverFar, driverNear]).2 driverFar (by decide)
  exact ⟨by decide, h.1, h.2.2.1⟩

/-- C5: the base fare stage computes BASE_FARE + distance times rate with
BASE_FARE = 50; wrapping it in Surge(m) and then Discount(disc) computes
max(0, (BASE_FARE + distance times rate) times m minus disc); and a
Discount stage never yields a negative fare, whatever it wraps. -/
theorem fare_pipeline_spec (d r m disc : ℚ) (c : FareCalc) (f : RideFacts) :
    BASE_FARE = 50 ∧
    FareCalc.base.calculate ⟨d, r⟩ = 50 + d * r ∧
    (FareCalc.discount (FareCalc.surge FareCalc.base m) disc).calculate ⟨d, r⟩ =
      max 0 ((50 + d * r) * m - disc) ∧
    0 ≤ (FareCalc.discount c disc).calculate f := by
  refine ⟨rfl, by simp [FareCalc.calculate, BASE_FARE], ?_, ?_⟩
  · simp only [FareCalc.calculate, BASE_FARE]
    rcases lt_or_le ((50 + d * r) * m - disc) 0 with h | h
    · rw [if_pos h, max_eq_left h.le]
    · rw [if_neg (not_lt.mpr h), max_eq_right h]
  · simp only [FareCalc.calculate]
    rcases lt_or_le (FareCalc.calculate c f - disc) 0 with h | h
    · rw [if_pos h]
    · rw [if_neg (not_lt.mpr h)]
      exact h

/-- C1 counterexample: a transition out of COMPLETED does not fail and does
not leave the status unchanged — Ride::updateStatus installs the new status
with no validation at all. -/
theorem updateStatus_out_of_completed_succeeds :
    rideCompleted.status = RideStatus.COMPLETED ∧
    (rideCompleted.updateStatus RideStatus.REQUESTED).status = RideStatus.REQUESTED ∧
    (rideCompleted.updateStatus RideStatus.REQUESTED).status ≠ rideCompleted.status := by
  decide

/-- C1 amended: Ride::updateStatus performs no transition validation and
cannot fail; it unconditionally sets the status to the requested value
(for any current status, including COMPLETED and CANCELLED) and leaves
every other ride field unchanged. -/
theorem ride_updateStatus_unconditional (r : Ride) (st : RideStatus) :
    (r.updateStatus st).status = st ∧
    (r.updateStatus st).driver = r.driver ∧
    (r.updateStatus st).fare = r.fare ∧
    (r.updateStatus st).paid = r.paid ∧
    (r.updateStatus st).observers = r.observers :=
  ⟨rfl, rfl, rfl, rfl, rfl⟩

/-- C7 counterexample: assignDriver on a ride that already has a driver and
is not in REQUESTED does not fail — it overwrites the driver reference and
forces the status to DRIVER_ASSIGNED. -/
theorem assignDriver_overwrites_counterexample :
    rideWithDriver.driver = some 5 ∧
    rideWithDriver.status = RideStatus.IN_PROGRESS ∧
    (rideWithDriver.assignDriver 7).driver = some 7 ∧
    (rideWithDriver.assignDriver 7).status = RideStatus.DRIVER_ASSIGNED := by
  decide

/-- C7 amended: Ride::assignDriver checks neither the current status nor
the driver reference and cannot fail: from any ride state it sets the
driver reference to the given driver (overwriting any previous one) and
transitions the status to DRIVER_ASSIGNED. -/
theorem ride_assignDriver_unconditional (r : Ride) (d : ℕ) :
    (r.assignDriver d).driver = some d ∧
    (r.assignDriver d).status = RideStatus.DRIVER_ASSIGNED :=
  ⟨rfl, rfl⟩

/-- Membership in the erase-remove of a driver id. -/
theorem mem_filter_ne (l : List ℕ) (i j : ℕ) :
    j ∈ l.filter (fun x => x != i) ↔ j ∈ l ∧ j ≠ i := by
  simp [List.mem_filter]

/-- requestRide when the strategy finds nobody: the ride is cancelled and
returned; only the ride counter and the rider history change. -/
theorem requestRide_none (dist : Location → Location → ℚ) (s : DispatchState)
    (riderId : ℕ) (pickup drop : Location) (t : VehicleType)
    (h : dispatchChoose s { riderId := riderId, pickup := pickup, drop := drop, rtype := t } =
      none) :
    requestRide dist s riderId pickup drop t =
      ({ s with rideCounter := s.rideCounter + 1,
                riderHistory := Function.update s.riderHistory riderId
                  (s.riderHistory riderId ++ [s.rideCounter + 1]) },
       { rid := s.rideCounter + 1, riderId := riderId, driver := none, pickup := pickup,
         drop := drop, rtype := t, status := RideStatus.CANCELLED,
         distanceKm := dist pickup drop, fare := 0, paid := false, observers := [] }) := by
  simp only [requestRide, h]
  rfl

/-- requestRide when the strategy returns a driver: observers attached,
driver assigned and marked ON_TRIP, pool pruned, ride stored as ongoing. -/
theorem requestRide_some (dist : Location → Location → ℚ) (s : DispatchState)
    (riderId : ℕ) (pickup drop : Location) (t : VehicleType) (d : Driver)
    (h : dispatchChoose s { riderId := riderId, pickup := pickup, drop := drop, rtype := t } =
      some d) :
    requestRide dist s riderId pickup drop t =
      ({ s with rideCounter := s.rideCounter + 1,
                riderHistory := Function.update s.riderHistory riderId
                  (s.riderHistory riderId ++ [s.rideCounter + 1]),
                driverStatus := Function.update s.driverStatus d.did DriverStatus.ON_TRIP,
                availableDrivers := s.availableDrivers.filter (fun j => j != d.did),
                ongoingRides := insertRide s.ongoingRides (s.rideCounter + 1)
                  { rid := s.rideCounter + 1, riderId := riderId, driver := some d.did,
                    pickup := pickup, drop := drop, rtype := t,
                    status := RideStatus.DRIVER_ASSIGNED, distanceKm := dist pickup drop,
                    fare := 0, paid := false,
                    observers := [ObserverKind.riderNotifier, ObserverKind.driverNotifier] } },
       { rid := s.rideCounter + 1, riderId := riderId, driver := some d.did,
         pickup := pickup, drop := drop, rtype := t, status := RideStatus.DRIVER_ASSIGNED,
         distanceKm := dist pickup drop, fare := 0, paid := false,
         observers := [ObserverKind.riderNotifier, ObserverKind.driverNotifier] }) := by
  simp only [requestRide, h]
  rfl

/-- updateRideStatus on an absent ride id reports not-found and changes
nothing. -/
theorem updateRideStatus_notFound (s : DispatchState) (rideId : ℕ) (newStatus : RideStatus)
    (h : lookupRide s.ongoingRides rideId = none) :
    updateRideStatus s rideId newStatus = (s, some DispatchError.rideNotFound) := by
  simp only [updateRideStatus, h]

/-- updateRideStatus on a present ride id rewrites the stored ride. -/
theorem updateRideStatus_found (s : DispatchState) (rideId : ℕ) (newStatus : RideStatus)
    (r : Ride) (h : lookupRide s.ongoingRides rideId = some r) :
    updateRideStatus s rideId newStatus =
      ({ s with ongoingRides := setRideAt s.ongoingRides rideId (r.updateStatus newStatus) },
       none) := by
  simp only [updateRideStatus, h]

/-- completeRide on an absent ride id reports not-found and changes
nothing. -/
theorem completeRide_notFound (s : DispatchState) (rideId : ℕ)
    (h : lookupRide s.ongoingRides rideId = none) :
    completeRide s rideId = (s, some DispatchError.rideNotFound) := by
  simp only [completeRide, h]

/-- completeRide on a present ride without a driver: the branch where the
C++ code would dereference a null driver pointer; the model reports an
error and changes nothing.  Unreachable for service-built states (see
goodState_applyOps). -/
theorem completeRide_noDriver (s : DispatchState) (rideId : ℕ) (r : Ride)
    (h : lookupRide s.ongoingRides rideId = some r) (hd : r.driver = none) :
    completeRide s rideId = (s, some DispatchError.rideHasNoDriver) := by
  simp only [completeRide, h]
  rw [show (r.updateStatus RideStatus.COMPLETED).driver = none from hd]

/-- completeRide on a present ride: the ride is archived as COMPLETED with
the pipeline fare and paid = true, and its driver is released. -/
theorem completeRide_found (s : DispatchState) (rideId : ℕ) (r : Ride) (d : ℕ)
    (h : lookupRide s.ongoingRides rideId = some r) (hd : r.driver = some d) :
    completeRide s rideId =
      ({ s with driverStatus := Function.update s.driverStatus d DriverStatus.AVAILABLE,
                availableDrivers := s.availableDrivers ++ [d],
                ongoingRides := eraseRide s.ongoingRides rideId,
                completedRides := s.completedRides ++
                  [{ rid := r.rid, riderId := r.riderId, driver := some d, pickup := r.pickup,
                     drop := r.drop, rtype := r.rtype, status := RideStatus.COMPLETED,
                     distanceKm := r.distanceKm,
                     fare := (completeCalc s (r.updateStatus RideStatus.COMPLETED)).calculate
                       { distanceKm := r.distanceKm,
                         farePerKm := (s.driverInfo d).farePerKm },
                     paid := true, observers := r.observers }] }, none) := by
  simp only [completeRide, h]
  rw [show (r.updateStatus RideStatus.COMPLETED).driver = some d from hd]
  rfl

/-- An entry of setRideAt is an old entry or the replacement. -/
theorem mem_setRideAt (l : List (ℕ × Ride)) (k : ℕ) (r : Ride) (p : ℕ × Ride)
    (hp : p ∈ setRideAt l k r) : p ∈ l ∨ p = (k, r) := by
  unfold setRideAt at hp
  obtain ⟨q, hq, hpq⟩ := List.mem_map.mp hp
  by_cases hqk : (q.1 == k) = true
  · right
    rw [if_pos hqk] at hpq
    exact hpq.symm
  · left
    rw [if_neg hqk] at hpq
    exact hpq ▸ hq

/-- An entry of insertRide is an old entry or the inserted one. -/
theorem mem_insertRide (l : List (ℕ × Ride)) (k : ℕ) (r : Ride) (p : ℕ × Ride)
    (hp : p ∈ insertRide l k r) : p ∈ l ∨ p = (k, r) := by
  unfold insertRide at hp
  by_cases hf : (l.find? (fun q => q.1 == k)).isSome = true
  · rw [if_pos hf] at hp
    exact mem_setRideAt l k r p hp
  · rw [if_neg hf] at hp
    rcases List.mem_append.mp hp with h | h
    · exact Or.inl h
    · exact Or.inr (List.mem_singleton.mp h)

/-- A successful lookup comes from a stored entry with the looked-up key. -/
theorem lookupRide_some_mem (l : List (ℕ × Ride)) (k : ℕ) (r : Ride)
    (h : lookupRide l k = some r) : ∃ p, p ∈ l ∧ p.1 = k ∧ p.2 = r := by
  unfold lookupRide at h
  cases hfind : l.find? (fun p => p.1 == k) with
  | none =>
    rw [hfind] at h
    cases h
  | some q =>
    rw [hfind] at h
    refine ⟨q, List.mem_of_find?_eq_some hfind, ?_, Option.some.inj h⟩
    have h2 := List.find?_some hfind
    exact beq_iff_eq.mp h2

/-- Every DispatchService operation preserves pool soundness: only
registerDriver and the driver release of completeRide add to the pool,
and both mark the added driver AVAILABLE at the same time. -/
theorem poolSound_applyOp (dist : Location → Location → ℚ) (s : DispatchState) (op : Op)
    (h : PoolSound s) : PoolSound (applyOp dist s op) := by
  cases op with
  | register i =>
    intro j hj
    show Function.update s.driverStatus i DriverStatus.AVAILABLE j = DriverStatus.AVAILABLE
    by_cases hji : j = i
    · rw [hji, Function.update_same]
    · rw [Function.update_noteq hji]
      rcases List.mem_append.mp hj with hj' | hj'
      · exact h j hj'
      · exact absurd (List.mem_singleton.mp hj') hji
  | deregister i =>
    intro j hj
    obtain ⟨hj', hji⟩ := (mem_filter_ne s.availableDrivers i j).mp hj
    show Function.update s.driverStatus i DriverStatus.OFFLINE j = DriverStatus.AVAILABLE
    rw [Function.update_noteq hji]
    exact h j hj'
  | request riderId pickup drop t =>
    show PoolSound (requestRide dist s riderId pickup drop t).1
    cases hc : dispatchChoose s { riderId := riderId, pickup := pickup, drop := drop, rtype := t }
      with
    | none =>
      rw [requestRide_none dist s riderId pickup drop t hc]
      exact h
    | some d =>
      rw [requestRide_some dist s riderId pickup drop t d hc]
      intro j hj
      obtain ⟨hj', hjd⟩ := (mem_filter_ne s.availableDrivers d.did j).mp hj
      show Function.update s.driverStatus d.did DriverStatus.ON_TRIP j = DriverStatus.AVAILABLE
      rw [Function.update_noteq hjd]
      exact h j hj'
  | update rideId newStatus =>
    show PoolSound (updateRideStatus s rideId newStatus).1
    cases hc : lookupRide s.ongoingRides rideId with
    | none =>
      rw [updateRideStatus_notFound s rideId newStatus hc]
      exact h
    | some r =>
      rw [updateRideStatus_found s rideId newStatus r hc]
      exact h
  | complete rideId =>
    show PoolSound (completeRide s rideId).1
    cases hc : lookupRide s.ongoingRides rideId with
    | none =>
      rw [completeRide_notFound s rideId hc]
      exact h
    | some r =>
      cases hd : r.driver with
      | none =>
        rw [completeRide_noDriver s rideId r hc hd]
        exact h
      | some d =>
        rw [completeRide_found s rideId r d hc hd]
        intro j hj
        show Function.update s.driverStatus d DriverStatus.AVAILABLE j = DriverStatus.AVAILABLE
        by_cases hjd : j = d
        · rw [hjd, Function.update_same]
        · rw [Function.update_noteq hjd]
          rcases List.mem_append.mp hj with hj' | hj'
          · exact h j hj'
          · exact absurd (List.mem_singleton.mp hj') hjd
  | setStrategy k => exact h
  | surgeOn m => exact h
  | surgeOff => exact h

/-- Every DispatchService operation preserves pool completeness relative
to the construction statuses: a driver the operation touches ends up
governed by the pool, and a driver it does not touch keeps its previous
standing. -/
theorem poolComplete_applyOp (dist : Location → Location → ℚ) (st0 : ℕ → DriverStatus)
    (s : DispatchState) (op : Op) (h : PoolComplete st0 s) :
    PoolComplete st0 (applyOp dist s op) := by
  cases op with
  | register i =>
    intro j
    by_cases hji : j = i
    · left
      intro _
      show j ∈ s.availableDrivers ++ [i]
      rw [hji]
      exact List.mem_append_right _ (List.mem_cons_self _ _)
    · rcases h j with hgov | ⟨hst, hnm, hnr⟩
      · left
        intro hav
        have hav' : Function.update s.driverStatus i DriverStatus.AVAILABLE j =
            DriverStatus.AVAILABLE := hav
        rw [Function.update_noteq hji] at hav'
        show j ∈ s.availableDrivers ++ [i]
        exact List.mem_append_left _ (hgov hav')
      · right
        refine ⟨?_, ?_, hnr⟩
        · show Function.update s.driverStatus i DriverStatus.AVAILABLE j = st0 j
          rw [Function.update_noteq hji]
          exact hst
        · show j ∉ s.availableDrivers ++ [i]
          intro hmem
          rcases List.mem_append.mp hmem with hm | hm
          · exact hnm hm
          · exact hji (List.mem_singleton.mp hm)
  | deregister i =>
    intro j
    by_cases hji : j = i
    · left
      intro hav
      exfalso
      have hav' : Function.update s.driverStatus i DriverStatus.OFFLINE j =
          DriverStatus.AVAILABLE := hav
      rw [hji, Function.update_same] at hav'
      exact DriverStatus.noConfusion hav'
    · rcases h j with hgov | ⟨hst, hnm, hnr⟩
      · left
        intro hav
        have hav' : Function.update s.driverStatus i DriverStatus.OFFLINE j =
            DriverStatus.AVAILABLE := hav
        rw [Function.update_noteq hji] at hav'
        show j ∈ s.availableDrivers.filter (fun x => x != i)
        exact (mem_filter_ne _ _ _).mpr ⟨hgov hav', hji⟩
      · right
        refine ⟨?_, ?_, hnr⟩
        · show Function.update s.driverStatus i DriverStatus.OFFLINE j = st0 j
          rw [Function.update_noteq hji]
          exact hst
        · show j ∉ s.availableDrivers.filter (fun x => x != i)
          intro hmem
          exact hnm ((mem_filter_ne _ _ _).mp hmem).1
  | request riderId pickup drop t =>
    show PoolComplete st0 (requestRide dist s riderId pickup drop t).1
    cases hc : dispatchChoose s { riderId := riderId, pickup := pickup, drop := drop, rtype := t }
      with
    | none =>
      rw [requestRide_none dist s riderId pickup drop t hc]
      exact h
    | some d =>
      rw [requestRide_some dist s riderId pickup drop t d hc]
      intro j
      by_cases hjd : j = d.did
      · left
        intro hav
        exfalso
        have hav' : Function.update s.driverStatus d.did DriverStatus.ON_TRIP j =
            DriverStatus.AVAILABLE := hav
        rw [hjd, Function.update_same] at hav'
        exact DriverStatus.noConfusion hav'
      · rcases h j with hgov | ⟨hst, hnm, hnr⟩
        · left
          intro hav
          have hav' : Function.update s.driverStatus d.did DriverStatus.ON_TRIP j =
              DriverStatus.AVAILABLE := hav
          rw [Function.update_noteq hjd] at hav'
          show j ∈ s.availableDrivers.filter (fun x => x != d.did)
          exact (mem_filter_ne _ _ _).mpr ⟨hgov hav', hjd⟩
        · right
          refine ⟨?_, ?_, ?_⟩
          · show Function.update s.driverStatus d.did DriverStatus.ON_TRIP j = st0 j
            rw [Function.update_noteq hjd]
            exact hst
          · show j ∉ s.availableDrivers.filter (fun x => x != d.did)
            intro hmem
            exact hnm ((mem_filter_ne _ _ _).mp hmem).1
          · intro p hp
            rcases mem_insertRide _ _ _ p hp with hm | hpr
            · exact hnr p hm
            · rw [hpr]
              intro heq
              exact hjd (Option.some.inj heq).symm
  | update rideId newStatus =>
    show PoolComplete st0 (updateRideStatus s rideId newStatus).1
    cases hc : lookupRide s.ongoingRides rideId with
    | none =>
      rw [updateRideStatus_notFound s rideId newStatus hc]
      exact h
    | some r =>
      rw [updateRideStatus_found s rideId newStatus r hc]
      intro j
      rcases h j with hgov | ⟨hst, hnm, hnr⟩
      · left
        exact hgov
      · right
        refine ⟨hst, hnm, ?_⟩
        intro p hp
        rcases mem_setRideAt _ _ _ p hp with hm | hpr
        · exact hnr p hm
        · obtain ⟨q, hq, hqk, hqe⟩ := lookupRide_some_mem _ _ _ hc
          have hqd := hnr q hq
          rw [hqe] at hqd
          rw [hpr]
          exact hqd
  | complete rideId =>
    show PoolComplete st0 (completeRide s rideId).1
    cases hc : lookupRide s.ongoingRides rideId with
    | none =>
      rw [completeRide_notFound s rideId hc]
      exact h
    | some r =>
      cases hd : r.driver with
      | none =>
        rw [completeRide_noDriver s rideId r hc hd]
        exact h
      | some d =>
        rw [completeRide_found s rideId r d hc hd]
        intro j
        by_cases hjd : j = d
        · left
          intro _
          show j ∈ s.availableDrivers ++ [d]
          rw [hjd]
          exact List.mem_append_right _ (List.mem_cons_self _ _)
        · rcases h j with hgov | ⟨hst, hnm, hnr⟩
          · left
            intro hav
            have hav' : Function.update s.driverStatus d DriverStatus.AVAILABLE j =
                DriverStatus.AVAILABLE := hav
            rw [Function.update_noteq hjd] at hav'
            show j ∈ s.availableDrivers ++ [d]
            exact List.mem_append_left _ (hgov hav')
          · right
            refine ⟨?_, ?_, ?_⟩
            · show Function.update s.driverStatus d DriverStatus.AVAILABLE j = st0 j
              rw [Function.update_noteq hjd]
              exact hst
            · show j ∉ s.availableDrivers ++ [d]
              intro hmem
              rcases List.mem_append.mp hmem with hm | hm
              · exact hnm hm
              · exact hjd (List.mem_singleton.mp hm)
            · intro p hp
              exact hnr p (List.mem_of_mem_filter hp)
  | setStrategy k => exact h
  | surgeOn m => exact h
  | surgeOff => exact h

/-- Pool soundness holds along every operation sequence. -/
theorem poolSound_applyOps (dist : Location → Location → ℚ) (s : DispatchState) (ops : List Op)
    (h : PoolSound s) : PoolSound (applyOps dist s ops) := by
  induction ops generalizing s with
  | nil => exact h
  | cons op rest ih => exact ih (applyOp dist s op) (poolSound_applyOp dist s op h)

/-- Pool completeness holds along every operation sequence. -/
theorem poolComplete_applyOps (dist : Location → Location → ℚ) (st0 : ℕ → DriverStatus)
    (s : DispatchState) (ops : List Op) (h : PoolComplete st0 s) :
    PoolComplete st0 (applyOps dist s ops) := by
  induction ops generalizing s with
  | nil => exact h
  | cons op rest ih => exact ih (applyOp dist s op) (poolComplete_applyOp dist st0 s op h)

/-- The startup state is pool-sound: the pool is empty. -/
theorem poolSound_init (dinfo : ℕ → DriverInfo) (st0 : ℕ → DriverStatus) (rdisc : ℕ → ℚ) :
    PoolSound (initState dinfo st0 rdisc) :=
  fun i hi => absurd hi (List.not_mem_nil i)

/-- At startup every driver object is untouched. -/
theorem poolComplete_init (dinfo : ℕ → DriverInfo) (st0 : ℕ → DriverStatus) (rdisc : ℕ → ℚ) :
    PoolComplete st0 (initState dinfo st0 rdisc) :=
  fun i => Or.inr ⟨rfl, fun hm => absurd hm (List.not_mem_nil i),
    fun p hp => absurd hp (List.not_mem_nil p)⟩

/-- C2 counterexample: with the statuses the Driver constructor actually
installs (AVAILABLE, main.cpp Driver constructor), a constructed but
never-registered driver object refutes the claimed iff: after an
operation sequence from the empty pool, driver 0 has status AVAILABLE yet
is not present in the available pool. -/
theorem available_pool_claim_counterexample :
    (applyOps distW (initState dinfoW stAvailW rdiscW) [Op.register 1]).driverStatus 0 =
      DriverStatus.AVAILABLE ∧
    0 ∉ (applyOps distW (initState dinfoW stAvailW rdiscW) [Op.register 1]).availableDrivers := by
  decide

/-- C2 amended: after every sequence of DispatchService operations from
the startup state, whatever statuses the driver objects were constructed
with: every driver in the available pool has status AVAILABLE; and every
driver whose status is AVAILABLE is in the pool unless the service never
touched it, in which case it still carries its construction status
(AVAILABLE, as the Driver constructor sets), sits outside the pool, and
is referenced by no ongoing ride. -/
theorem available_pool_status_spec (dist : Location → Location → ℚ) (dinfo : ℕ → DriverInfo)
    (st0 : ℕ → DriverStatus) (rdisc : ℕ → ℚ) (ops : List Op) :
    (∀ i ∈ (applyOps dist (initState dinfo st0 rdisc) ops).availableDrivers,
      (applyOps dist (initState dinfo st0 rdisc) ops).driverStatus i =
        DriverStatus.AVAILABLE) ∧
    (∀ i, (applyOps dist (initState dinfo st0 rdisc) ops).driverStatus i =
        DriverStatus.AVAILABLE →
      i ∈ (applyOps dist (initState dinfo st0 rdisc) ops).availableDrivers ∨
        (st0 i = DriverStatus.AVAILABLE ∧
          i ∉ (applyOps dist (initState dinfo st0 rdisc) ops).availableDrivers ∧
          ∀ p ∈ (applyOps dist (initState dinfo st0 rdisc) ops).ongoingRides,
            p.2.driver ≠ some i)) := by
  have hS := poolSound_applyOps dist (initState dinfo st0 rdisc) ops
    (poolSound_init dinfo st0 rdisc)
  have hC := poolComplete_applyOps dist st0 (initState dinfo st0 rdisc) ops
    (poolComplete_init dinfo st0 rdisc)
  refine ⟨hS, ?_⟩
  intro i hi
  rcases hC i with hgov | ⟨hst, hnm, hnr⟩
  · exact Or.inl (hgov hi)
  · exact Or.inr ⟨hst.symm.trans hi, hnm, hnr⟩

/-- C2 witness: with the constructor statuses, after registering driver 0
the pool holds it and the theorem yields its status AVAILABLE. -/
theorem available_pool_status_spec_witness :
    (applyOps distW (initState dinfoW stAvailW rdiscW) [Op.register 0]).driverStatus 0 =
      DriverStatus.AVAILABLE :=
  (available_pool_status_spec distW dinfoW stAvailW rdiscW [Op.register 0]).1 0 (by decide)

/-- Keys above the ride counter are absent from a well-formed registry. -/
theorem lookupRide_gt_counter (s : DispatchState) (hg : GoodState s) (k : ℕ)
    (hk : s.rideCounter < k) : lookupRide s.ongoingRides k = none := by
  unfold lookupRide
  cases hfind : s.ongoingRides.find? (fun p => p.1 == k) with
  | none => rfl
  | some p =>
    exfalso
    have h2 := List.find?_some hfind
    have hpk : p.1 = k := beq_iff_eq.mp h2
    have hle := (hg p (List.mem_of_find?_eq_some hfind)).1
    omega

/-- Every DispatchService operation preserves registry well-formedness. -/
theorem goodState_applyOp (dist : Location → Location → ℚ) (s : DispatchState) (op : Op)
    (hg : GoodState s) : GoodState (applyOp dist s op) := by
  cases op with
  | register i => exact hg
  | deregister i => exact hg
  | request riderId pickup drop t =>
    show GoodState (requestRide dist s riderId pickup drop t).1
    cases hc : dispatchChoose s { riderId := riderId, pickup := pickup, drop := drop, rtype := t }
      with
    | none =>
      rw [requestRide_none dist s riderId pickup drop t hc]
      intro p hp
      obtain ⟨h1, h2, h3⟩ := hg p hp
      exact ⟨Nat.le_succ_of_le h1, h2, h3⟩
    | some d =>
      rw [requestRide_some dist s riderId pickup drop t d hc]
      intro p hp
      rcases mem_insertRide _ _ _ p hp with hmem | rfl
      · obtain ⟨h1, h2, h3⟩ := hg p hmem
        exact ⟨Nat.le_succ_of_le h1, h2, h3⟩
      · exact ⟨Nat.le_refl _, rfl, rfl⟩
  | update rideId newStatus =>
    show GoodState (updateRideStatus s rideId newStatus).1
    cases hc : lookupRide s.ongoingRides rideId with
    | none =>
      rw [updateRideStatus_notFound s rideId newStatus hc]
      exact hg
    | some r =>
      rw [updateRideStatus_found s rideId newStatus r hc]
      intro p hp
      rcases mem_setRideAt _ _ _ p hp with hmem | rfl
      · exact hg p hmem
      · obtain ⟨q, hqmem, hqk, hqr⟩ := lookupRide_some_mem _ _ _ hc
        obtain ⟨h1, h2, h3⟩ := hg q hqmem
        rw [hqk] at h1
        rw [hqr] at h2 h3
        rw [hqk] at h2
        exact ⟨h1, h2, h3⟩
  | complete rideId =>
    show GoodState (completeRide s rideId).1
    cases hc : lookupRide s.ongoingRides rideId with
    | none =>
      rw [completeRide_notFound s rideId hc]
      exact hg
    | some r =>
      cases hd : r.driver with
      | none =>
        have heq : completeRide s rideId = (s, some DispatchError.rideHasNoDriver) := by
          simp only [completeRide, hc]
          rw [show (r.updateStatus RideStatus.COMPLETED).driver = none from hd]
        rw [heq]
        exact hg
      | some d =>
        rw [completeRide_found s rideId r d hc hd]
        intro p hp
        exact hg p (List.mem_of_mem_filter hp)
  | setStrategy k => exact hg
  | surgeOn m => exact hg
  | surgeOff => exact hg

/-- Registry well-formedness holds along every operation sequence. -/
theorem goodState_applyOps (dist : Location → Location → ℚ) (s : DispatchState) (ops : List Op)
    (hg : GoodState s) : GoodState (applyOps dist s ops) := by
  induction ops generalizing s with
  | nil => exact hg
  | cons op rest ih => exact ih (applyOp dist s op) (goodState_applyOp dist s op hg)

/-- The startup state has a well-formed (empty) registry. -/
theorem goodState_init (dinfo : ℕ → DriverInfo) (st0 : ℕ → DriverStatus) (rdisc : ℕ → ℚ) :
    GoodState (initState dinfo st0 rdisc) :=
  fun p hp => absurd hp (List.not_mem_nil p)

/-- C6 counterexample: registering the identifier 0 twice does not fail
and does not leave the pool unchanged — the pool ends with a duplicated
entry, since registerDriver performs no duplicate check. -/
theorem registerDriver_duplicate_counterexample :
    (registerDriver (initState dinfoW stOffW rdiscW) 0).availableDrivers = [0] ∧
    (registerDriver (registerDriver (initState dinfoW stOffW rdiscW) 0) 0).availableDrivers =
      [0, 0] := by
  decide

/-- C6 amended: registerDriver performs no duplicate check and cannot
fail: for every state, including one whose pool already holds the
identifier, it sets the driver status to AVAILABLE and appends the
identifier to the pool (duplicating the entry when already present), and
the driver then appears as an AVAILABLE candidate for subsequent matching
queries. -/
theorem registerDriver_spec (s : DispatchState) (i : ℕ) :
    (registerDriver s i).driverStatus i = DriverStatus.AVAILABLE ∧
    (registerDriver s i).availableDrivers = s.availableDrivers ++ [i] ∧
    ({ did := i, info := s.driverInfo i, status := DriverStatus.AVAILABLE } : Driver) ∈
      candidatesOf (registerDriver s i) := by
  refine ⟨by simp [registerDriver], rfl, ?_⟩
  unfold candidatesOf registerDriver
  apply List.mem_map.mpr
  refine ⟨i, List.mem_append_right _ (List.mem_cons_self _ _), ?_⟩
  simp

/-- C8: a requestRide on which the strategy finds no driver returns a ride
with status CANCELLED and no assigned driver; the ongoing registry is left
exactly as it was and in particular does not contain the new ride. -/
theorem requestRide_noMatch_cancelled (dist : Location → Location → ℚ)
    (dinfo : ℕ → DriverInfo) (st0 : ℕ → DriverStatus) (rdisc : ℕ → ℚ) (ops : List Op)
    (s : DispatchState) (hs : s = applyOps dist (initState dinfo st0 rdisc) ops)
    (riderId : ℕ) (pickup drop : Location) (t : VehicleType)
    (hnone : dispatchChoose s { riderId := riderId, pickup := pickup, drop := drop, rtype := t } =
      none) :
    (requestRide dist s riderId pickup drop t).2.status = RideStatus.CANCELLED ∧
    (requestRide dist s riderId pickup drop t).2.driver = none ∧
    (requestRide dist s riderId pickup drop t).1.ongoingRides = s.ongoingRides ∧
    lookupRide (requestRide dist s riderId pickup drop t).1.ongoingRides
      (requestRide dist s riderId pickup drop t).2.rid = none := by
  have hg : GoodState s := by
    rw [hs]
    exact goodState_applyOps dist (initState dinfo st0 rdisc) ops
      (goodState_init dinfo st0 rdisc)
  rw [requestRide_none dist s riderId pickup drop t hnone]
  exact ⟨rfl, rfl, rfl, lookupRide_gt_counter s hg (s.rideCounter + 1) (Nat.lt_succ_self _)⟩

/-- C8 witness: a sedan request against the empty startup pool is returned
cancelled, unassigned and unregistered. -/
theorem requestRide_noMatch_cancelled_witness :
    (requestRide distW (initState dinfoW stOffW rdiscW) 7 ⟨0, 0⟩ ⟨1, 1⟩
      VehicleType.SEDAN).2.status = RideStatus.CANCELLED ∧
    (requestRide distW (initState dinfoW stOffW rdiscW) 7 ⟨0, 0⟩ ⟨1, 1⟩
      VehicleType.SEDAN).2.driver = none ∧
    (requestRide distW (initState dinfoW stOffW rdiscW) 7 ⟨0, 0⟩ ⟨1, 1⟩
      VehicleType.SEDAN).1.ongoingRides = (initState dinfoW stOffW rdiscW).ongoingRides ∧
    lookupRide (requestRide distW (initState dinfoW stOffW rdiscW) 7 ⟨0, 0⟩ ⟨1, 1⟩
      VehicleType.SEDAN).1.ongoingRides
      (requestRide distW (initState dinfoW stOffW rdiscW) 7 ⟨0, 0⟩ ⟨1, 1⟩
        VehicleType.SEDAN).2.rid = none :=
  requestRide_noMatch_cancelled distW dinfoW stOffW rdiscW [] (initState dinfoW stOffW rdiscW)
    rfl 7 ⟨0, 0⟩ ⟨1, 1⟩ VehicleType.SEDAN rfl

/-- C9: updateRideStatus and completeRide on a ride identifier absent from
the ongoing registry (for example one already completed and archived) both
report the not-found error and return the service state completely
unchanged. -/
theorem rideNotFound_spec (s : DispatchState) (rideId : ℕ) (newStatus : RideStatus)
    (h : lookupRide s.ongoingRides rideId = none) :
    updateRideStatus s rideId newStatus = (s, some DispatchError.rideNotFound) ∧
    completeRide s rideId = (s, some DispatchError.rideNotFound) :=
  ⟨updateRideStatus_notFound s rideId newStatus h, completeRide_notFound s rideId h⟩

/-- C9 witness: both operations on identifier 3 against the empty startup
registry report not-found and leave the state untouched. -/
theorem rideNotFound_spec_witness :
    updateRideStatus (initState dinfoW stOffW rdiscW) 3 RideStatus.IN_PROGRESS =
      (initState dinfoW stOffW rdiscW, some DispatchError.rideNotFound) ∧
    completeRide (initState dinfoW stOffW rdiscW) 3 =
      (initState dinfoW stOffW rdiscW, some DispatchError.rideNotFound) :=
  rideNotFound_spec (initState dinfoW stOffW rdiscW) 3 RideStatus.IN_PROGRESS rfl

/-- C10: the installed DummyPaymentProcessor approves every payment, so
completeRide on any ride present in a service-built ongoing registry
succeeds and archives the ride with paid = true — the payment-failure
branch never runs. -/
theorem completeRide_marks_paid (dist : Location → Location → ℚ) (dinfo : ℕ → DriverInfo)
    (st0 : ℕ → DriverStatus) (rdisc : ℕ → ℚ) (ops : List Op) (s : DispatchState)
    (hs : s = applyOps dist (initState dinfo st0 rdisc) ops)
    (rideId : ℕ) (r : Ride) (hr : lookupRide s.ongoingRides rideId = some r) :
    (∀ (x : Ride) (a : ℚ), DummyPaymentProcessor.processPayment x a = true) ∧
    (completeRide s rideId).2 = none ∧
    ∃ r3, (completeRide s rideId).1.completedRides = s.completedRides ++ [r3] ∧
      r3.paid = true ∧ r3.status = RideStatus.COMPLETED ∧ r3.rid = r.rid := by
  have hg : GoodState s := by
    rw [hs]
    exact goodState_applyOps dist (initState dinfo st0 rdisc) ops
      (goodState_init dinfo st0 rdisc)
  obtain ⟨p, hpmem, hpk, hpr⟩ := lookupRide_some_mem _ _ _ hr
  have hds := (hg p hpmem).2.2
  rw [hpr] at hds
  obtain ⟨d, hd⟩ := Option.isSome_iff_exists.mp hds
  rw [completeRide_found s rideId r d hr hd]
  exact ⟨fun x a => rfl, rfl, ⟨_, rfl, rfl, rfl, rfl⟩⟩

/-- C10 witness: completing ride 1 of the concrete run opsW archives it
paid and COMPLETED. -/
theorem completeRide_marks_paid_witness :
    (∀ (x : Ride) (a : ℚ), DummyPaymentProcessor.processPayment x a = true) ∧
    (completeRide (applyOps distW (initState dinfoW stOffW rdiscW) opsW) 1).2 = none ∧
    ∃ r3, (completeRide (applyOps distW (initState dinfoW stOffW rdiscW) opsW)
        1).1.completedRides =
        (applyOps distW (initState dinfoW stOffW rdiscW) opsW).completedRides ++ [r3] ∧
      r3.paid = true ∧ r3.status = RideStatus.COMPLETED ∧ r3.rid = rideW.rid :=
  completeRide_marks_paid distW dinfoW stOffW rdiscW opsW
    (applyOps distW (initState dinfoW stOffW rdiscW) opsW) rfl 1 rideW rfl

end RideShare
